import Mathlib

/-!
Verification of the real-time chat server `src/real_time_chat/main.py`
(Flask-SocketIO). The server keeps one global in-memory registry
`active_users : Dict[str, dict]` mapping a socket id (`sid`) to a session
record `{username, room?, connected_at}`, and five event handlers:
`connect`, `disconnect`, `on_join`, `on_leave`, `handle_messages`.

The embedding below models the registry as an insertion-ordered
association list with Python-dict semantics (assignment to an existing
key replaces its value in place; assignment to a fresh key appends;
`del` removes the entry; iteration follows insertion order), and each
handler as a pure function from the registry and the event data to the
new registry together with the list of outbound Socket.IO `emit` calls.
Timestamps (`datetime.now().isoformat()`) and the identity stored in the
Flask cookie session (`session["username"]`) are passed in as parameters,
since they come from outside the registry logic. The Socket.IO
transport-level room bookkeeping (`join_room` / `leave_room`) is part of
the event-dispatcher boundary, not of the registry, and carries no state
the claims refer to.
-/

namespace RealTimeChat

/-- A session record: the value stored in `active_users` for one live
connection (`main.py` lines 71-74): the display name, the optional
current room (absent until a successful join), and the connect time. -/
structure Session where
  username : String
  room : Option String
  connected_at : String
deriving DecidableEq, Repr

/-- The registry `active_users`: an insertion-ordered map from socket id
to session, embedded as an association list. -/
abbrev Registry := List (String × Session)

/-- The configured room list `Config.CHAT_ROOMS` (`main.py` line 24). -/
def CHAT_ROOMS : List String := ["General", "Random", "Tech", "Games"]

/-- Python dict lookup / membership test: the value at the first (and in
a real dict, only) occurrence of the key. -/
def regFind (sid : String) : Registry → Option Session
  | [] => none
  | (k, v) :: rest => if k = sid then some v else regFind sid rest

/-- Python dict assignment `d[sid] = v`: replace the value at an existing
key in place, keeping its position, else append a new entry. -/
def dictSet (sid : String) (v : Session) : Registry → Registry
  | [] => [(sid, v)]
  | (k, w) :: rest => if k = sid then (sid, v) :: rest else (k, w) :: dictSet sid v rest

/-- Python dict deletion `del d[sid]`: remove the entry at the key. -/
def dictDel (sid : String) : Registry → Registry
  | [] => []
  | (k, w) :: rest => if k = sid then rest else (k, w) :: dictDel sid rest

/-- The presence snapshot `[user["username"] for user in active_users.values()]`
(`main.py` lines 79 and 99). -/
def usernames (reg : Registry) : List String :=
  reg.map fun p => p.2.username

/-- One outbound `emit` call. `activeUsers` is the `broadcast=True` global
presence snapshot; `status` goes to a room; `roomMessage` is the public
`"message"` event to a room; `privateMessage` goes to a single socket id
(its payload fields are msg, from, to, timestamp in the source). -/
inductive OutEvent where
  | activeUsers (users : List String)
  | status (room msg ty timestamp : String)
  | roomMessage (room msg username timestamp : String)
  | privateMessage (sid msg sender target timestamp : String)
deriving DecidableEq, Repr

/-- True exactly on the `status` events (the room join/leave notices). -/
def isStatusEvent : OutEvent → Bool
  | .status _ _ _ _ => true
  | _ => false

/-- The `connect` handler (`main.py` lines 65-85): store a fresh session
(no room key) under the socket id, then broadcast the updated presence
snapshot to everyone. -/
def connectOp (reg : Registry) (sid username now : String) : Registry × List OutEvent :=
  let reg' := dictSet sid ⟨username, none, now⟩ reg
  (reg', [.activeUsers (usernames reg')])

/-- The `disconnect` handler (`main.py` lines 89-109): delete the session
if the socket id is present (silently skip otherwise), then broadcast the
updated presence snapshot to everyone. -/
def disconnectOp (reg : Registry) (sid : String) : Registry × List OutEvent :=
  let reg' := if (regFind sid reg).isSome then dictDel sid reg else reg
  (reg', [.activeUsers (usernames reg')])

/-- The `on_join` handler (`main.py` lines 113-138): default the room to
"General"; if the room is not configured, log and return without touching
anything; otherwise set the session's room and emit one `status` "join"
event to the room. When the socket id is absent from the registry,
`active_users[request.sid]["room"] = room` raises `KeyError` before the
emit and the handler's `except` swallows it, so nothing is mutated or
emitted. (`join_room(room)` is a transport-level dispatcher call.) -/
def onJoin (reg : Registry) (sid username : String) (roomField : Option String)
    (now : String) : Registry × List OutEvent :=
  let room := roomField.getD "General"
  if room ∈ CHAT_ROOMS then
    match regFind sid reg with
    | none => (reg, [])
    | some s =>
        (dictSet sid { s with room := some room } reg,
         [.status room (username ++ " has joined the room") "join" now])
  else (reg, [])

/-- The `on_leave` handler (`main.py` lines 142-163): default the room to
"General"; pop the session's room key if the socket id is present
(`pop("room", None)` is a no-op when the key is absent); then emit one
`status` "leave" event to the room unconditionally. (`leave_room(room)`
is a transport-level dispatcher call.) -/
def onLeave (reg : Registry) (sid username : String) (roomField : Option String)
    (now : String) : Registry × List OutEvent :=
  let reg' :=
    match regFind sid reg with
    | none => reg
    | some s => dictSet sid { s with room := none } reg
  (reg', [.status (roomField.getD "General") (username ++ " has left the room") "leave" now])

/-- The payload of a `message` event (`main.py` lines 169-175): each field
read with `data.get`, so each may be absent. -/
structure MsgData where
  room : Option String
  ty : Option String
  msg : Option String
  target : Option String
deriving DecidableEq, Repr

/-- Python's `str.strip()` on the message text (`main.py` line 181):
drop leading and trailing whitespace. (Defined structurally over the
character list so that concrete inputs evaluate inside the kernel.) -/
def pyStrip (s : String) : String :=
  ⟨((s.data.dropWhile Char.isWhitespace).reverse.dropWhile Char.isWhitespace).reverse⟩

/-- The private-routing loop of `handle_messages` (`main.py` lines
194-209): scan the registry in insertion order and return the socket id
of the first session whose username equals the target. -/
def firstMatch (target : String) : Registry → Option String
  | [] => none
  | (sid, s) :: rest => if s.username = target then some sid else firstMatch target rest

/-- The `handle_messages` handler (`main.py` lines 167-230): default the
room to "General" and the type to "message"; strip the message text and
drop the event when it is empty; for `"private"`, drop when the target is
absent or empty (Python falsiness of `data.get("target")`), else deliver
one `private_message` to the first matching session or silently nothing;
for any other type, drop unconfigured rooms, else emit one room-wide
`message` event. The registry is never written. -/
def handleMessages (reg : Registry) (username : String) (d : MsgData)
    (now : String) : Registry × List OutEvent :=
  let room := d.room.getD "General"
  let msgType := d.ty.getD "message"
  let message := pyStrip (d.msg.getD "")
  if message = "" then (reg, [])
  else if msgType = "private" then
    match d.target with
    | none => (reg, [])
    | some t =>
        if t = "" then (reg, [])
        else
          match firstMatch t reg with
          | some tsid => (reg, [.privateMessage tsid message username t now])
          | none => (reg, [])
  else if room ∈ CHAT_ROOMS then (reg, [.roomMessage room message username now])
  else (reg, [])

/-- One inbound client event, carrying the out-of-band inputs (socket id,
cookie identity, wall-clock time) its handler reads. -/
inductive Ev where
  | connect (sid username now : String)
  | disconnect (sid : String)
  | join (sid username : String) (room : Option String) (now : String)
  | leave (sid username : String) (room : Option String) (now : String)
  | message (username : String) (d : MsgData) (now : String)
deriving DecidableEq, Repr

/-- Dispatch one inbound event to its handler. -/
def stepOp (reg : Registry) : Ev → Registry × List OutEvent
  | .connect sid username now => connectOp reg sid username now
  | .disconnect sid => disconnectOp reg sid
  | .join sid username room now => onJoin reg sid username room now
  | .leave sid username room now => onLeave reg sid username room now
  | .message username d now => handleMessages reg username d now

/-- The registry after a sequence of events. -/
def runReg (reg : Registry) (evs : List Ev) : Registry :=
  evs.foldl (fun r e => (stepOp r e).1) reg

/-- A session's room field, when present, is a configured room. -/
def sessionRoomOk (s : Session) : Bool :=
  match s.room with
  | none => true
  | some r => decide (r ∈ CHAT_ROOMS)

/-- Every room stored in any session of the registry is a configured room. -/
def roomsOk (reg : Registry) : Bool :=
  reg.all fun p => sessionRoomOk p.2

/-! ### Spec-side reference model of open connections

Modelled from the spec: sections 3 and 8 describe "the set of identities
for connections currently open" — a connection becomes open at its
`connect` event and closed at its `disconnect` event, and a connection id
is "not reused while the connection is open". The transport itself is not
part of `src/`, so this reference model is built from those words and the
code's registry is compared against it. -/

/-- The open connections: socket id paired with the identity supplied at
connect time. -/
abbrev OpenConns := List (String × String)

/-- The identity of an open connection, if the id is open. -/
def lookupConn (sid : String) : OpenConns → Option String
  | [] => none
  | (k, u) :: rest => if k = sid then some u else lookupConn sid rest

/-- Close a connection: remove its entry. -/
def delConn (sid : String) : OpenConns → OpenConns
  | [] => []
  | (k, u) :: rest => if k = sid then rest else (k, u) :: delConn sid rest

/-- Modelled from the spec: how one event changes which connections are
open. A `connect` opens a fresh connection, a `disconnect` closes it
(no-op when it is not open); other events do not open or close anything. -/
def openStep (conns : OpenConns) : Ev → OpenConns
  | .connect sid u _ => conns ++ [(sid, u)]
  | .disconnect sid => delConn sid conns
  | _ => conns

/-- The open connections after a sequence of events. -/
def openAfter (conns : OpenConns) (evs : List Ev) : OpenConns :=
  evs.foldl openStep conns

/-- Modelled from the spec: a physically possible presence trace. Only
`connect`/`disconnect` events occur, and a `connect` only arrives for a
socket id that is not currently open (the transport never reuses an open
connection's id). Any `disconnect`, including one for an id that is not
open, is allowed. -/
def wfCD (conns : OpenConns) : List Ev → Bool
  | [] => true
  | e :: rest =>
    match e with
    | .connect sid _ _ => (lookupConn sid conns).isNone && wfCD (openStep conns e) rest
    | .disconnect _ => wfCD (openStep conns e) rest
    | _ => false

/-- The view of the registry as open connections: socket id and identity. -/
def toConns (reg : Registry) : OpenConns :=
  reg.map fun p => (p.1, p.2.username)

/-! ### Dictionary lemmas -/

theorem regFind_dictSet_self (sid : String) (v : Session) (reg : Registry) :
    regFind sid (dictSet sid v reg) = some v := by
  induction reg with
  | nil => simp [dictSet, regFind]
  | cons p rest ih =>
      obtain ⟨k, w⟩ := p
      by_cases h : k = sid
      · simp [dictSet, regFind, h]
      · simp [dictSet, regFind, h, ih]

theorem regFind_dictSet_ne (sid sid' : String) (v : Session) (reg : Registry)
    (h : sid' ≠ sid) : regFind sid' (dictSet sid v reg) = regFind sid' reg := by
  induction reg with
  | nil => simp [dictSet, regFind, Ne.symm h]
  | cons p rest ih =>
      obtain ⟨k, w⟩ := p
      by_cases hk : k = sid
      · subst hk
        simp [dictSet, regFind, Ne.symm h]
      · simp [dictSet, regFind, hk, ih]

theorem dictSet_dictSet (sid : String) (v w : Session) (reg : Registry) :
    dictSet sid w (dictSet sid v reg) = dictSet sid w reg := by
  induction reg with
  | nil => simp [dictSet]
  | cons p rest ih =>
      obtain ⟨k, u⟩ := p
      by_cases h : k = sid
      · simp [dictSet, h]
      · simp [dictSet, h, ih]

theorem dictSet_of_regFind (sid : String) (v : Session) (reg : Registry)
    (h : regFind sid reg = some v) : dictSet sid v reg = reg := by
  induction reg with
  | nil => simp [regFind] at h
  | cons p rest ih =>
      obtain ⟨k, w⟩ := p
      by_cases hk : k = sid
      · subst hk
        simp [regFind] at h
        simp [dictSet, h]
      · simp [regFind, hk] at h
        simp [dictSet, hk, ih h]

theorem dictSet_of_regFind_none (sid : String) (v : Session) (reg : Registry)
    (h : regFind sid reg = none) : dictSet sid v reg = reg ++ [(sid, v)] := by
  induction reg with
  | nil => simp [dictSet]
  | cons p rest ih =>
      obtain ⟨k, w⟩ := p
      by_cases hk : k = sid
      · simp [regFind, hk] at h
      · simp [regFind, hk] at h
        simp [dictSet, hk, ih h]

theorem regFind_eq_none_of_not_mem_keys (sid : String) (reg : Registry)
    (h : sid ∉ reg.map Prod.fst) : regFind sid reg = none := by
  induction reg with
  | nil => simp [regFind]
  | cons p rest ih =>
      obtain ⟨k, w⟩ := p
      simp only [List.map_cons, List.mem_cons] at h
      push_neg at h
      have hks : ¬ k = sid := fun hh => h.1 hh.symm
      simp [regFind, hks, ih h.2]

theorem not_mem_keys_dictDel_self (sid : String) (reg : Registry)
    (h : (reg.map Prod.fst).Nodup) : sid ∉ (dictDel sid reg).map Prod.fst := by
  induction reg with
  | nil => simp [dictDel]
  | cons p rest ih =>
      obtain ⟨k, w⟩ := p
      simp only [List.map_cons, List.nodup_cons] at h
      by_cases hk : k = sid
      · subst hk
        simp only [dictDel, if_pos rfl]
        exact h.1
      · have hsk : sid ≠ k := fun hh => hk hh.symm
        simp only [dictDel, if_neg hk, List.map_cons, List.mem_cons]
        push_neg
        exact ⟨hsk, ih h.2⟩

theorem regFind_dictDel_self (sid : String) (reg : Registry)
    (h : (reg.map Prod.fst).Nodup) : regFind sid (dictDel sid reg) = none :=
  regFind_eq_none_of_not_mem_keys sid (dictDel sid reg) (not_mem_keys_dictDel_self sid reg h)

/-- `handle_messages` never writes the registry, in any branch. -/
theorem handleMessages_fst (reg : Registry) (username : String) (d : MsgData)
    (now : String) : (handleMessages reg username d now).1 = reg := by
  unfold handleMessages
  dsimp only
  split
  · rfl
  · split
    · split
      · rfl
      · split
        · rfl
        · split <;> rfl
    · split <;> rfl

/-! ### Claim theorems -/

/-- Claim C3: a join event whose room (after defaulting to "General") is
not in the configured room set is a silent no-op: the registry is
returned unchanged and no event is emitted. -/
theorem claim_C3 (reg : Registry) (sid username now : String) (roomField : Option String)
    (h : roomField.getD "General" ∉ CHAT_ROOMS) :
    onJoin reg sid username roomField now = (reg, []) := by
  simp [onJoin, h]

/-- Witness for C3 at a concrete unconfigured room. -/
theorem claim_C3_witness :
    onJoin [("s1", Session.mk "A" none "t0")] "s1" "A" (some "Lobby") "t1"
      = ([("s1", Session.mk "A" none "t0")], []) :=
  claim_C3 [("s1", Session.mk "A" none "t0")] "s1" "A" "t1" (some "Lobby") (by decide)

/-- Claim C4: a leave event, regardless of prior membership, always emits
exactly one `status` "leave" event (with the identity's message and the
timestamp) to the requested room, clears the session's room field when
the socket id is present (a no-op on an absent session), and changes no
other session. -/
theorem claim_C4 (reg : Registry) (sid username : String) (roomField : Option String)
    (now : String) :
    (onLeave reg sid username roomField now).2
        = [OutEvent.status (roomField.getD "General") (username ++ " has left the room")
            "leave" now]
    ∧ regFind sid (onLeave reg sid username roomField now).1
        = (regFind sid reg).map (fun s => { s with room := none })
    ∧ ∀ sid', sid' ≠ sid →
        regFind sid' (onLeave reg sid username roomField now).1 = regFind sid' reg := by
  refine ⟨rfl, ?_, ?_⟩
  · cases hc : regFind sid reg with
    | none => simp [onLeave, hc]
    | some s => simp [onLeave, hc, regFind_dictSet_self]
  · intro sid' hne
    cases hc : regFind sid reg with
    | none => simp [onLeave, hc]
    | some s => simp [onLeave, hc, regFind_dictSet_ne sid sid' _ reg hne]

/-- Witness for C4: leaving a room never joined still leaves the other
session untouched. -/
theorem claim_C4_witness :
    regFind "s2" (onLeave [("s2", Session.mk "B" (some "Tech") "t0")] "s1" "A"
        (some "General") "t1").1
      = regFind "s2" [("s2", Session.mk "B" (some "Tech") "t0")] :=
  (claim_C4 [("s2", Session.mk "B" (some "Tech") "t0")] "s1" "A" (some "General") "t1").2.2
    "s2" (by decide)

/-- Claim C5: disconnecting a socket id absent from the registry leaves
the registry unchanged and still emits exactly one presence broadcast;
and (for any registry with the dict's unique keys) disconnecting the same
id twice is the first disconnect followed by exactly this no-op. -/
theorem claim_C5 (reg : Registry) (sid : String) (habs : regFind sid reg = none) :
    disconnectOp reg sid = (reg, [OutEvent.activeUsers (usernames reg)])
    ∧ ∀ reg₂ : Registry, (reg₂.map Prod.fst).Nodup →
        disconnectOp (disconnectOp reg₂ sid).1 sid
          = ((disconnectOp reg₂ sid).1,
              [OutEvent.activeUsers (usernames (disconnectOp reg₂ sid).1)]) := by
  constructor
  · simp [disconnectOp, habs]
  · intro reg₂ hnd
    have habs2 : regFind sid (disconnectOp reg₂ sid).1 = none := by
      cases hc : regFind sid reg₂ with
      | none => simp [disconnectOp, hc]
      | some s =>
          simp only [disconnectOp, hc, Option.isSome_some, if_pos]
          exact regFind_dictDel_self sid reg₂ hnd
    generalize (disconnectOp reg₂ sid).1 = reg₃ at habs2 ⊢
    simp [disconnectOp, habs2]

/-- Witness for C5 at concrete registries. -/
theorem claim_C5_witness :
    disconnectOp [("s1", Session.mk "A" none "t0")] "s2"
        = ([("s1", Session.mk "A" none "t0")],
            [OutEvent.activeUsers (usernames [("s1", Session.mk "A" none "t0")])])
    ∧ disconnectOp (disconnectOp [("s2", Session.mk "B" none "t0")] "s2").1 "s2"
        = ((disconnectOp [("s2", Session.mk "B" none "t0")] "s2").1,
            [OutEvent.activeUsers
              (usernames (disconnectOp [("s2", Session.mk "B" none "t0")] "s2").1)]) := by
  have h := claim_C5 [("s1", Session.mk "A" none "t0")] "s2" (by decide)
  exact ⟨h.1, h.2 [("s2", Session.mk "B" none "t0")] (by decide)⟩

/-- Claim C6: a message event whose msg field is absent, empty, or
whitespace-only (empty after trimming) produces zero outbound events and
leaves the registry unchanged. -/
theorem claim_C6 (reg : Registry) (username : String) (d : MsgData) (now : String)
    (h : pyStrip (d.msg.getD "") = "") :
    handleMessages reg username d now = (reg, []) := by
  simp [handleMessages, h]

/-- Witness for C6 on a whitespace-only message. -/
theorem claim_C6_witness :
    handleMessages [("s1", Session.mk "A" none "t0")] "A"
        (MsgData.mk (some "General") none (some "  ") none) "t1"
      = ([("s1", Session.mk "A" none "t0")], []) :=
  claim_C6 [("s1", Session.mk "A" none "t0")] "A"
    (MsgData.mk (some "General") none (some "  ") none) "t1" (by decide)

/-- Claim C9: for every registry state and socket id, the disconnect
handler's only outbound event is the single global `active_users`
presence snapshot of the post-state; in particular it emits no `status`
(room-leave) event. -/
theorem claim_C9 (reg : Registry) (sid : String) :
    (disconnectOp reg sid).2
        = [OutEvent.activeUsers (usernames (disconnectOp reg sid).1)]
    ∧ (disconnectOp reg sid).2.all (fun e => !isStatusEvent e) = true :=
  ⟨rfl, rfl⟩

/-- Claim C10: a join event with a configured room for a socket id absent
from the registry aborts before the emit (the lookup `KeyError` is
swallowed by the handler's except): the registry is unchanged and no
event is emitted. -/
theorem claim_C10 (reg : Registry) (sid username now room : String)
    (hroom : room ∈ CHAT_ROOMS) (habs : regFind sid reg = none) :
    onJoin reg sid username (some room) now = (reg, []) := by
  simp [onJoin, hroom, habs]

/-- Witness for C10 on the empty registry. -/
theorem claim_C10_witness :
    onJoin [] "s1" "A" (some "General") "t1" = ([], []) :=
  claim_C10 [] "s1" "A" "t1" "General" (by decide) rfl

theorem firstMatch_append (t : String) (pre : Registry) (sid : String) (s : Session)
    (rest : Registry) (hpre : ∀ p ∈ pre, p.2.username ≠ t) (hs : s.username = t) :
    firstMatch t (pre ++ (sid, s) :: rest) = some sid := by
  induction pre with
  | nil => simp [firstMatch, hs]
  | cons q pre' ih =>
      obtain ⟨k, w⟩ := q
      have hw : ¬ w.username = t := hpre (k, w) (by simp)
      simp only [List.cons_append, firstMatch, if_neg hw]
      exact ih fun p hp => hpre p (by simp [hp])

/-- Claim C2: routing a non-empty private message with a non-empty target
delivers exactly one `private_message` payload to the first session in
registry order whose username equals the target (and to no one else), or
nothing at all when no session matches; the first element of any
decomposition of the registry whose username matches is the one chosen;
and an absent or empty target produces zero outbound events. -/
theorem claim_C2 (reg : Registry) (username now : String) (roomField : Option String)
    (msg target : String) (hmsg : pyStrip msg ≠ "") (ht : target ≠ "") :
    ((handleMessages reg username
          (MsgData.mk roomField (some "private") (some msg) (some target)) now).2
        = match firstMatch target reg with
          | some tsid => [OutEvent.privateMessage tsid (pyStrip msg) username target now]
          | none => [])
    ∧ (∀ pre sid s rest, reg = pre ++ (sid, s) :: rest →
        (∀ p ∈ pre, p.2.username ≠ target) → s.username = target →
        firstMatch target reg = some sid)
    ∧ (handleMessages reg username
          (MsgData.mk roomField (some "private") (some msg) none) now).2 = []
    ∧ (handleMessages reg username
          (MsgData.mk roomField (some "private") (some msg) (some "")) now).2 = [] := by
  refine ⟨?_, ?_, ?_, ?_⟩
  · cases hfm : firstMatch target reg with
    | none => simp [handleMessages, hmsg, ht, hfm]
    | some tsid => simp [handleMessages, hmsg, ht, hfm]
  · intro pre sid s rest hre hpre hs
    subst hre
    exact firstMatch_append target pre sid s rest hpre hs
  · simp [handleMessages, hmsg]
  · simp [handleMessages, hmsg]

/-- Witness for C2: two sessions share the target identity; only the
first in registry order receives the (stripped) message. -/
theorem claim_C2_witness :
    (handleMessages [("s1", Session.mk "B" none "t0"), ("s2", Session.mk "B" none "t0")]
        "A" (MsgData.mk (some "General") (some "private") (some " hi ") (some "B")) "n1").2
      = [OutEvent.privateMessage "s1" "hi" "A" "B" "n1"]
    ∧ firstMatch "B" [("s1", Session.mk "B" none "t0"), ("s2", Session.mk "B" none "t0")]
      = some "s1" := by
  have h := claim_C2 [("s1", Session.mk "B" none "t0"), ("s2", Session.mk "B" none "t0")]
    "A" "n1" (some "General") " hi " "B" (by decide) (by decide)
  constructor
  · rw [h.1]
    decide
  · exact h.2.1 [] "s1" (Session.mk "B" none "t0") [("s2", Session.mk "B" none "t0")]
      rfl (by simp) rfl

/-- Counterexample to C8 as stated: a session already in room "Tech"
joins "General" and then leaves it; its room field ends cleared, not
restored to the pre-join value "Tech". -/
theorem claim_C8_counterexample :
    ¬ (regFind "s1" (onLeave (onJoin [("s1", Session.mk "A" (some "Tech") "t0")] "s1" "A"
            (some "General") "t1").1 "s1" "A" (some "General") "t2").1
        = regFind "s1" [("s1", Session.mk "A" (some "Tech") "t0")]) := by
  decide

/-- Claim C8 (amended): for a connected session whose room field is
absent, joining a configured room and then leaving the same room restores
the registry exactly to its pre-join state (room field cleared), and each
of the two operations broadcasts exactly one `status` event. -/
theorem claim_C8 (reg : Registry) (sid username room now₁ now₂ : String) (s : Session)
    (hs : regFind sid reg = some s) (hnoroom : s.room = none)
    (hroom : room ∈ CHAT_ROOMS) :
    (onLeave (onJoin reg sid username (some room) now₁).1 sid username
        (some room) now₂).1 = reg
    ∧ (onJoin reg sid username (some room) now₁).2
        = [OutEvent.status room (username ++ " has joined the room") "join" now₁]
    ∧ (onLeave (onJoin reg sid username (some room) now₁).1 sid username
        (some room) now₂).2
        = [OutEvent.status room (username ++ " has left the room") "leave" now₂] := by
  refine ⟨?_, ?_, rfl⟩
  · have h1 : (onJoin reg sid username (some room) now₁).1
        = dictSet sid { s with room := some room } reg := by
      simp [onJoin, hroom, hs]
    rw [h1]
    have h2 : regFind sid (dictSet sid { s with room := some room } reg)
        = some { s with room := some room } := regFind_dictSet_self sid _ reg
    simp only [onLeave, h2]
    rw [dictSet_dictSet]
    have hseq : ({ s with room := none } : Session) = s := by
      obtain ⟨u, r, c⟩ := s
      simp only at hnoroom
      simp [hnoroom]
    rw [hseq]
    exact dictSet_of_regFind sid s reg hs
  · simp [onJoin, hroom, hs]

/-- Witness for C8 (amended) at a concrete roomless session. -/
theorem claim_C8_witness :
    (onLeave (onJoin [("s1", Session.mk "A" none "t0")] "s1" "A" (some "General") "t1").1
        "s1" "A" (some "General") "t2").1 = [("s1", Session.mk "A" none "t0")] :=
  (claim_C8 [("s1", Session.mk "A" none "t0")] "s1" "A" "General" "t1" "t2"
    (Session.mk "A" none "t0") rfl rfl (by decide)).1

theorem roomsOk_dictSet (sid : String) (v : Session) (reg : Registry)
    (h : roomsOk reg = true) (hv : sessionRoomOk v = true) :
    roomsOk (dictSet sid v reg) = true := by
  induction reg with
  | nil => simp [dictSet, roomsOk, hv]
  | cons p rest ih =>
      obtain ⟨k, w⟩ := p
      simp only [roomsOk, List.all_cons, Bool.and_eq_true] at h
      by_cases hk : k = sid
      · simp [dictSet, hk, roomsOk, hv, h.2]
      · have := ih h.2
        simp only [roomsOk] at this
        simp [dictSet, hk, roomsOk, h.1, this]

theorem roomsOk_dictDel (sid : String) (reg : Registry) (h : roomsOk reg = true) :
    roomsOk (dictDel sid reg) = true := by
  induction reg with
  | nil => simp [dictDel, roomsOk]
  | cons p rest ih =>
      obtain ⟨k, w⟩ := p
      simp only [roomsOk, List.all_cons, Bool.and_eq_true] at h
      by_cases hk : k = sid
      · simp only [dictDel, if_pos hk]
        simp [roomsOk, h.2]
      · have := ih h.2
        simp only [roomsOk] at this
        simp [dictDel, hk, roomsOk, h.1, this]

/-- One handler step preserves the room invariant. -/
theorem roomsOk_step (reg : Registry) (e : Ev) (h : roomsOk reg = true) :
    roomsOk (stepOp reg e).1 = true := by
  cases e with
  | connect sid u now =>
      simp only [stepOp, connectOp]
      exact roomsOk_dictSet sid _ reg h rfl
  | disconnect sid =>
      simp only [stepOp, disconnectOp]
      split
      · exact roomsOk_dictDel sid reg h
      · exact h
  | join sid u roomF now =>
      simp only [stepOp, onJoin]
      split
      · next hmem =>
          cases hc : regFind sid reg with
          | none => simpa [hc] using h
          | some s =>
              simp only [hc]
              refine roomsOk_dictSet sid _ reg h ?_
              simp [sessionRoomOk, hmem]
      · exact h
  | leave sid u roomF now =>
      simp only [stepOp, onLeave]
      cases hc : regFind sid reg with
      | none => simpa [hc] using h
      | some s =>
          simp only [hc]
          exact roomsOk_dictSet sid _ reg h rfl
  | message u d now =>
      rw [show (stepOp reg (.message u d now)).1 = reg from handleMessages_fst reg u d now]
      exact h

theorem roomsOk_runReg (evs : List Ev) :
    ∀ reg, roomsOk reg = true → roomsOk (runReg reg evs) = true := by
  induction evs with
  | nil => intro reg h; exact h
  | cons e rest ih => intro reg h; exact ih _ (roomsOk_step reg e h)

/-- Claim C7: in every state reachable from the empty registry by any
sequence of connect, disconnect, join, leave, and message events, every
session whose room field is present holds a configured room name. -/
theorem claim_C7 (evs : List Ev) : roomsOk (runReg [] evs) = true :=
  roomsOk_runReg evs [] rfl

theorem lookupConn_toConns (sid : String) (reg : Registry) :
    lookupConn sid (toConns reg) = (regFind sid reg).map Session.username := by
  induction reg with
  | nil => rfl
  | cons p rest ih =>
      obtain ⟨k, w⟩ := p
      by_cases hk : k = sid
      · simp [toConns, lookupConn, regFind, hk]
      · simp only [toConns, List.map_cons] at ih ⊢
        simp [lookupConn, regFind, hk, ih]

theorem toConns_dictDel (sid : String) (reg : Registry) :
    toConns (dictDel sid reg) = delConn sid (toConns reg) := by
  induction reg with
  | nil => rfl
  | cons p rest ih =>
      obtain ⟨k, w⟩ := p
      by_cases hk : k = sid
      · simp [toConns, dictDel, delConn, hk]
      · simp only [toConns, List.map_cons] at ih ⊢
        simp [dictDel, delConn, hk, ih]

theorem delConn_of_lookup_none (sid : String) (conns : OpenConns)
    (h : lookupConn sid conns = none) : delConn sid conns = conns := by
  induction conns with
  | nil => rfl
  | cons p rest ih =>
      obtain ⟨k, u⟩ := p
      by_cases hk : k = sid
      · simp [lookupConn, hk] at h
      · simp only [lookupConn, if_neg hk] at h
        simp [delConn, hk, ih h]

theorem usernames_toConns (reg : Registry) :
    usernames reg = (toConns reg).map Prod.snd := by
  simp [usernames, toConns]

/-- The registry after a disconnect step, viewed as open connections,
is the spec-side closing of that connection. -/
theorem toConns_disconnect (reg : Registry) (sid : String) :
    toConns (disconnectOp reg sid).1 = delConn sid (toConns reg) := by
  cases hc : regFind sid reg with
  | none =>
      have hl : lookupConn sid (toConns reg) = none := by
        simp [lookupConn_toConns, hc]
      simp [disconnectOp, hc, delConn_of_lookup_none sid _ hl]
  | some s => simp [disconnectOp, hc, toConns_dictDel]

/-- The registry after a connect step for a fresh socket id, viewed as
open connections, is the spec-side opening of that connection. -/
theorem toConns_connect (reg : Registry) (sid u now : String)
    (h : regFind sid reg = none) :
    toConns (connectOp reg sid u now).1 = toConns reg ++ [(sid, u)] := by
  simp [connectOp, dictSet_of_regFind_none sid _ reg h, toConns]

/-- Refinement: along any well-formed presence trace, the registry viewed
as open connections evolves exactly as the spec-side open-connection
model. -/
theorem toConns_runReg (evs : List Ev) :
    ∀ reg, wfCD (toConns reg) evs = true →
      toConns (runReg reg evs) = openAfter (toConns reg) evs := by
  induction evs with
  | nil => intro reg _; rfl
  | cons e rest ih =>
      intro reg h
      cases e with
      | connect sid u now =>
          simp only [wfCD, Bool.and_eq_true, Option.isNone_iff_eq_none] at h
          have hfind : regFind sid reg = none := by
            have := h.1
            rw [lookupConn_toConns] at this
            cases hc : regFind sid reg with
            | none => rfl
            | some s => rw [hc] at this; simp at this
          have hstep : toConns (stepOp reg (.connect sid u now)).1
              = openStep (toConns reg) (.connect sid u now) :=
            toConns_connect reg sid u now hfind
          show toConns (runReg (stepOp reg (.connect sid u now)).1 rest)
              = openAfter (openStep (toConns reg) (.connect sid u now)) rest
          rw [← hstep]
          exact ih _ (by rw [hstep]; exact h.2)
      | disconnect sid =>
          simp only [wfCD] at h
          have hstep : toConns (stepOp reg (.disconnect sid)).1
              = openStep (toConns reg) (.disconnect sid) :=
            toConns_disconnect reg sid
          show toConns (runReg (stepOp reg (.disconnect sid)).1 rest)
              = openAfter (openStep (toConns reg) (.disconnect sid)) rest
          rw [← hstep]
          exact ih _ (by rw [hstep]; exact h)
      | join sid u roomF now => simp [wfCD] at h
      | leave sid u roomF now => simp [wfCD] at h
      | message u d now => simp [wfCD] at h

theorem wfCD_append (xs ys : List Ev) :
    ∀ conns, wfCD conns (xs ++ ys) = true →
      wfCD conns xs = true ∧ wfCD (openAfter conns xs) ys = true := by
  induction xs with
  | nil => intro conns h; exact ⟨rfl, h⟩
  | cons e xs ih =>
      intro conns h
      cases e with
      | connect sid u now =>
          simp only [List.cons_append, wfCD, Bool.and_eq_true] at h ⊢
          obtain ⟨h1, h2⟩ := h
          obtain ⟨h3, h4⟩ := ih _ h2
          exact ⟨⟨h1, h3⟩, h4⟩
      | disconnect sid =>
          simp only [List.cons_append, wfCD] at h ⊢
          exact ih _ h
      | join sid u roomF now => simp [wfCD] at h
      | leave sid u roomF now => simp [wfCD] at h
      | message u d now => simp [wfCD] at h

theorem openAfter_append_singleton (conns : OpenConns) (xs : List Ev) (e : Ev) :
    openAfter conns (xs ++ [e]) = openStep (openAfter conns xs) e := by
  simp [openAfter]

/-- Claim C1: along any physically possible sequence of connect and
disconnect events, the handler fired by each event emits exactly one
global `active_users` broadcast, and its users list is exactly the list
of identities of the connections open right after that event (the
spec-side open-connection model): connect inserts its session before the
broadcast and disconnect removes its session before the broadcast, so
the snapshot never shows a closed connection and never omits an open
one. -/
theorem claim_C1 (pre : List Ev) (e : Ev) (hwf : wfCD [] (pre ++ [e]) = true) :
    (stepOp (runReg [] pre) e).2
      = [OutEvent.activeUsers ((openAfter [] (pre ++ [e])).map Prod.snd)] := by
  obtain ⟨hpre, he⟩ := wfCD_append pre [e] [] hwf
  have hrel : toConns (runReg [] pre) = openAfter [] pre := toConns_runReg pre [] hpre
  rw [openAfter_append_singleton]
  cases e with
  | connect sid u now =>
      simp only [wfCD, Bool.and_eq_true, Option.isNone_iff_eq_none] at he
      have hfind : regFind sid (runReg [] pre) = none := by
        have h1 := he.1
        rw [← hrel, lookupConn_toConns] at h1
        cases hc : regFind sid (runReg [] pre) with
        | none => rfl
        | some s => rw [hc] at h1; simp at h1
      have h2 : (stepOp (runReg [] pre) (.connect sid u now)).2
          = [OutEvent.activeUsers
              (usernames (stepOp (runReg [] pre) (.connect sid u now)).1)] := rfl
      rw [h2, usernames_toConns,
        show (stepOp (runReg [] pre) (.connect sid u now)).1
            = (connectOp (runReg [] pre) sid u now).1 from rfl,
        toConns_connect _ sid u now hfind, hrel]
      rfl
  | disconnect sid =>
      have h2 : (stepOp (runReg [] pre) (.disconnect sid)).2
          = [OutEvent.activeUsers
              (usernames (stepOp (runReg [] pre) (.disconnect sid)).1)] := rfl
      rw [h2, usernames_toConns,
        show (stepOp (runReg [] pre) (.disconnect sid)).1
            = (disconnectOp (runReg [] pre) sid).1 from rfl,
        toConns_disconnect _ sid, hrel]
      rfl
  | join sid u roomF now => simp [wfCD] at he
  | leave sid u roomF now => simp [wfCD] at he
  | message u d now => simp [wfCD] at he

/-- Witness for C1: two connects and a disconnect; the final broadcast
lists exactly the one still-open connection's identity. -/
theorem claim_C1_witness :
    (stepOp (runReg [] [Ev.connect "s1" "A" "t1", Ev.connect "s2" "B" "t2"])
        (Ev.disconnect "s1")).2
      = [OutEvent.activeUsers
          ((openAfter [] ([Ev.connect "s1" "A" "t1", Ev.connect "s2" "B" "t2"]
              ++ [Ev.disconnect "s1"])).map Prod.snd)] :=
  claim_C1 [Ev.connect "s1" "A" "t1", Ev.connect "s2" "B" "t2"] (Ev.disconnect "s1")
    (by decide)

end RealTimeChat
